import Mathlib

/-!
Verification of the Literature Discovery & Synthesis Pipeline
(`src/agents/literature_search_agent_group.py`, `src/utils/research_api.py`).

The Python code is embedded shallowly: external collaborators (the
text-understanding service, the bibliographic providers, the PDF fetcher,
the prompt templates loaded from disk) are parameters of the Lean
functions, and each pipeline stage is a pure Lean function translated
line by line from the source.
-/

namespace EmpathyScale

/-- Python whitespace set used by `str.strip()` and regex `\s`:
space, tab, newline, carriage return, vertical tab, form feed. -/
def pyIsSpace (c : Char) : Bool :=
  c = ' ' || c = '\t' || c = '\n' || c = '\r' || c = '\x0b' || c = '\x0c'

/-- `str.strip()` on a character list: drop Python whitespace at both ends. -/
def pyStripChars (cs : List Char) : List Char :=
  ((cs.dropWhile pyIsSpace).reverse.dropWhile pyIsSpace).reverse

/-- `str.strip()` on a string. -/
def pyStrip (s : String) : String :=
  String.mk (pyStripChars s.data)

/-- `str.strip(c)` for a single character `c`: drop all copies of `c`
at both ends. -/
def pyStripChar (c : Char) (cs : List Char) : List Char :=
  ((cs.dropWhile (· = c)).reverse.dropWhile (· = c)).reverse

/-- The normalized `Paper` record built by the provider adapters and
enriched by the later stages (`relevance_score`, `relevance_reason`,
`category`, `downloaded`, `local_pdf_path`, `downloaded_at` are absent
until the corresponding stage sets them). -/
structure Paper where
  title : String
  abstract : String
  url : String
  year : Option Int
  authors : List String
  source : String
  entry_id : String
  doi : Option String := none
  citation_count : Option Int := none
  relevance_score : Option Nat := none
  relevance_reason : Option String := none
  category : Option String := none
  downloaded : Option Bool := none
  local_pdf_path : Option String := none
  downloaded_at : Option String := none
deriving DecidableEq, Repr

/-! ### 4.1 Query Generator (`generate_queries`) -/

/-- `line.split('. ', 1)[-1]`: the part after the first occurrence of
`". "`, or the whole list when the separator does not occur. -/
def afterEnumDot : List Char → Option (List Char)
  | '.' :: ' ' :: rest => some rest
  | _ :: rest => afterEnumDot rest
  | [] => none

/-- One iteration of the query-parsing loop body:
`line.strip()`, then `line.split('. ', 1)[-1].strip()`, then
`line.strip('"').strip("'")`. -/
def cleanQueryLine (raw : String) : String :=
  let l1 := pyStripChars raw.data
  let l2 := pyStripChars ((afterEnumDot l1).getD l1)
  String.mk (pyStripChar '\'' (pyStripChar '"' l2))

/-- The filter applied to a cleaned line before it is kept as a query:
nonempty, longer than 10 characters, and not starting with one of the
meta-words `Query`, `Format`, `Generate`. -/
def keepQueryLine (l : String) : Bool :=
  l ≠ "" && l.length > 10 &&
    !(l.startsWith "Query" || l.startsWith "Format" || l.startsWith "Generate")

/-- Parsing of the text-understanding service's response into query
candidates: split on newlines, clean each line, keep the survivors. -/
def parseQueries (content : String) : List String :=
  ((content.splitOn "\n").map cleanQueryLine).filter keepQueryLine

/-- The fixed generic fallback query used to pad short parses. -/
def genericFallbackQuery : String := "robot empathy human-robot interaction"

/-- `generate_queries` on the non-exceptional path: parse the response,
pad with the generic fallback while fewer than 5 queries, return at
most 6. The exceptional path (service failure) instead returns the
three canned fallback queries loaded from the prompt files. -/
def generate_queries (fallback : String × String × String) :
    Option String → List String
  | some content =>
      let qs := parseQueries content
      (qs ++ List.replicate (5 - qs.length) genericFallbackQuery).take 6
  | none => [fallback.1, fallback.2.1, fallback.2.2]

/-- Claim C1: for every run in which the text-understanding service
returns a response, whatever its shape, the query generator returns
between 5 and 6 queries: parses shorter than 5 are padded with the
fixed generic fallback query up to 5, and the result is truncated to
at most 6. -/
theorem generate_queries_length_bounds (fallback : String × String × String)
    (content : String) :
    5 ≤ (generate_queries fallback (some content)).length ∧
      (generate_queries fallback (some content)).length ≤ 6 := by
  unfold generate_queries
  have h := List.length_take 6
    (parseQueries content ++
      List.replicate (5 - (parseQueries content).length) genericFallbackQuery)
  simp only [List.length_append, List.length_replicate] at h
  constructor
  · simp only [h]; omega
  · simp only [h]; omega

/-! ### 4.4 Deduplicator (inline in `search_and_screen`, lines 143-149) -/

/-- The title key used for deduplication: `paper['title'].lower()`. -/
def titleKey (p : Paper) : String := p.title.toLower

/-- The deduplication loop, with the `seen_titles` set made explicit:
keep a paper iff its lowercased title has not been seen before. -/
def dedupFrom (seen : List String) : List Paper → List Paper
  | [] => []
  | p :: rest =>
      if titleKey p ∈ seen then dedupFrom seen rest
      else p :: dedupFrom (titleKey p :: seen) rest

/-- Basic deduplication over the accumulated search results:
first-seen-wins on the case-insensitive title. -/
def dedup (papers : List Paper) : List Paper := dedupFrom [] papers

theorem mem_dedupFrom {seen : List String} {l : List Paper} {p : Paper}
    (h : p ∈ dedupFrom seen l) : titleKey p ∉ seen ∧ p ∈ l := by
  induction l generalizing seen with
  | nil => simp [dedupFrom] at h
  | cons q rest ih =>
    by_cases hq : titleKey q ∈ seen
    · have h' : p ∈ dedupFrom seen rest := by simpa [dedupFrom, hq] using h
      exact ⟨(ih h').1, List.mem_cons_of_mem _ (ih h').2⟩
    · simp only [dedupFrom, if_neg hq] at h
      rcases List.mem_cons.mp h with rfl | h'
      · exact ⟨hq, List.mem_cons_self _ _⟩
      · have := ih h'
        refine ⟨fun hmem => this.1 (List.mem_cons_of_mem _ hmem),
          List.mem_cons_of_mem _ this.2⟩

theorem dedupFrom_idem (seen : List String) (l : List Paper) :
    dedupFrom seen (dedupFrom seen l) = dedupFrom seen l := by
  induction l generalizing seen with
  | nil => rfl
  | cons q rest ih =>
    by_cases hq : titleKey q ∈ seen
    · simp [dedupFrom, hq, ih]
    · simp only [dedupFrom, if_neg hq]
      rw [ih]

theorem dedupFrom_length (seen : List String) (l : List Paper) :
    (dedupFrom seen l).length ≤ l.length := by
  induction l generalizing seen with
  | nil => simp [dedupFrom]
  | cons q rest ih =>
    by_cases hq : titleKey q ∈ seen
    · simp only [dedupFrom, if_pos hq, List.length_cons]
      exact (ih seen).trans (Nat.le_succ _)
    · simp only [dedupFrom, if_neg hq, List.length_cons]
      exact Nat.succ_le_succ (ih _)

theorem dedupFrom_pairwise (seen : List String) (l : List Paper) :
    (dedupFrom seen l).Pairwise (fun p q => titleKey p ≠ titleKey q) := by
  induction l generalizing seen with
  | nil => exact List.Pairwise.nil
  | cons q rest ih =>
    by_cases hq : titleKey q ∈ seen
    · simpa [dedupFrom, hq] using ih seen
    · simp only [dedupFrom, if_neg hq]
      refine List.Pairwise.cons ?_ (ih _)
      intro p hp hEq
      exact (mem_dedupFrom hp).1 (by rw [hEq]; exact List.mem_cons_self _ _)

theorem dedupFrom_find (seen : List String) (l : List Paper) (p : Paper)
    (hp : p ∈ dedupFrom seen l) :
    l.find? (fun q => titleKey q == titleKey p) = some p := by
  induction l generalizing seen with
  | nil => simp [dedupFrom] at hp
  | cons q rest ih =>
    by_cases hq : titleKey q ∈ seen
    · have hp' : p ∈ dedupFrom seen rest := by simpa [dedupFrom, hq] using hp
      have hkp : titleKey p ∉ seen := (mem_dedupFrom hp').1
      have hne : ¬((fun q => titleKey q == titleKey p) q = true) := by
        simp only [beq_iff_eq]
        intro h; exact hkp (h ▸ hq)
      rw [List.find?_cons_of_neg (p := fun q => titleKey q == titleKey p)
        (a := q) rest hne]
      exact ih seen hp'
    · simp only [dedupFrom, if_neg hq] at hp
      rcases List.mem_cons.mp hp with rfl | hp'
      · exact List.find?_cons_of_pos _ (by simp)
      · have hkp : titleKey p ∉ titleKey q :: seen := (mem_dedupFrom hp').1
        have hne : ¬((fun q => titleKey q == titleKey p) q = true) := by
          simp only [beq_iff_eq]
          intro h; exact hkp (by rw [← h]; exact List.mem_cons_self _ _)
        rw [List.find?_cons_of_neg (p := fun q => titleKey q == titleKey p)
          (a := q) rest hne]
        exact ih (titleKey q :: seen) hp'

/-- Claim C3: the Deduplicator is idempotent, never lengthens its input,
retains pairwise case-insensitively distinct titles, and for each title
key keeps exactly the first-encountered Paper (it is the one `find?`
locates first in the input). -/
theorem dedup_properties (l : List Paper) :
    dedup (dedup l) = dedup l ∧
    (dedup l).length ≤ l.length ∧
    (dedup l).Pairwise (fun p q => titleKey p ≠ titleKey q) ∧
    ∀ p ∈ dedup l, l.find? (fun q => titleKey q == titleKey p) = some p :=
  ⟨dedupFrom_idem [] l, dedupFrom_length [] l, dedupFrom_pairwise [] l,
    fun p hp => dedupFrom_find [] l p hp⟩

/-- A concrete paper used to exercise the deduplicator. -/
def paperHri : Paper :=
  { title := "Empathy in HRI", abstract := "a", url := "http://x/1.pdf",
    year := some 2020, authors := ["A"], source := "arXiv", entry_id := "1" }

/-- The same work re-encountered with different casing and metadata. -/
def paperHriDup : Paper :=
  { title := "EMPATHY IN HRI", abstract := "b", url := "http://x/2.pdf",
    year := some 2021, authors := ["B"], source := "Semantic Scholar",
    entry_id := "2" }

/-- Witness for C3 at a concrete duplicate pair. -/
theorem dedup_properties_witness :
    [paperHri, paperHriDup].find?
      (fun q => titleKey q == titleKey paperHri) = some paperHri :=
  (dedup_properties [paperHri, paperHriDup]).2.2.2 paperHri (by decide)

/-! ### 4.5 Relevance Screener (`_screen_relevance`) -/

/-- Contiguous-sublist test used for `pat in content` in Python. -/
def listContainsSub (pat : List Char) : List Char → Bool
  | [] => pat.isEmpty
  | c :: rest => List.isPrefixOf pat (c :: rest) || listContainsSub pat rest

/-- Substring containment (`"SCORE:" in content` in Python). -/
def containsSub (pat s : String) : Bool :=
  listContainsSub pat.data s.data

/-- Value of a maximal leading digit run; `none` when there is no
leading digit (the regex group `(\d+)` fails to match here). -/
def leadingNatValue (cs : List Char) : Option Nat :=
  match cs.takeWhile Char.isDigit with
  | [] => none
  | ds => some (ds.foldl (fun acc c => 10 * acc + (c.toNat - '0'.toNat)) 0)

/-- Attempt of the pattern `SCORE:\s*(\d+)` at the head of the input. -/
def scoreMatchAt (cs : List Char) : Option Nat :=
  if cs.take 6 = "SCORE:".data then
    leadingNatValue ((cs.drop 6).dropWhile pyIsSpace)
  else none

/-- `re.search(r'SCORE:\s*(\d+)', content)`: first position at which the
whole pattern matches, scanning left to right. -/
def searchScore : List Char → Option Nat
  | [] => none
  | c :: rest =>
      match scoreMatchAt (c :: rest) with
      | some n => some n
      | none => searchScore rest

/-- Score parsing in `_screen_relevance`: start from the default 3,
overwrite only when `"SCORE:"` occurs and the regex search succeeds. -/
def parseScore (content : String) : Nat :=
  if containsSub "SCORE:" content then
    match searchScore content.data with
    | some n => n
    | none => 3
  else 3

/-- Attempt of the pattern `REASON:\s*(.+)` (DOTALL) at the head of the
input, returning `group(1).strip()`. The greedy `\s*` backs off one
character when nothing would remain for `(.+)`, so a `REASON:` label
followed only by whitespace yields the empty string after stripping. -/
def reasonMatchAt (cs : List Char) : Option String :=
  if cs.take 7 = "REASON:".data then
    let rest := cs.drop 7
    match rest.dropWhile pyIsSpace with
    | [] => if rest.isEmpty then none else some ""
    | body => some (String.mk (pyStripChars body))
  else none

/-- `re.search(r'REASON:\s*(.+)', content, re.DOTALL)` followed by
`.strip()` of the first group. -/
def searchReason : List Char → Option String
  | [] => none
  | c :: rest =>
      match reasonMatchAt (c :: rest) with
      | some r => some r
      | none => searchReason rest

/-- Reason parsing in `_screen_relevance`: default
`"Relevance assessment"`, overwritten on a successful regex search. -/
def parseReason (content : String) : String :=
  if containsSub "REASON:" content then
    match searchReason content.data with
    | some r => r
    | none => "Relevance assessment"
  else "Relevance assessment"

/-- `focus_areas[0] if focus_areas else "definitions"`. -/
def focusHead : List String → String
  | [] => "definitions"
  | f :: _ => f

/-- One iteration of the screening loop over one paper. The
text-understanding service is `llm` (`none` models a raised exception,
caught and treated as skip-this-paper), and `tmpl` is the external
screening prompt template applied to the title, the first 500
characters of the abstract, and the focus area. Papers scoring at
least 3 gain `relevance_score` and `relevance_reason`; the rest are
dropped. -/
def screenPaper (llm : String → Option String)
    (tmpl : String → String → String → String) (focus_areas : List String)
    (p : Paper) : Option Paper :=
  match llm (tmpl p.title (p.abstract.take 500) (focusHead focus_areas)) with
  | none => none
  | some content =>
      let score := parseScore content
      if 3 ≤ score then
        some { p with relevance_score := some score,
                      relevance_reason := some (parseReason content) }
      else none

/-- `_screen_relevance`: screen the first 80 papers, keeping those the
per-paper step accepts. -/
def screen_relevance (llm : String → Option String)
    (tmpl : String → String → String → String) (papers : List Paper)
    (focus_areas : List String) : List Paper :=
  (papers.take 80).filterMap (screenPaper llm tmpl focus_areas)

theorem screenPaper_some {llm : String → Option String}
    {tmpl : String → String → String → String} {fa : List String}
    {p q : Paper} (h : screenPaper llm tmpl fa q = some p) :
    ∃ s, p.relevance_score = some s ∧ 3 ≤ s := by
  cases hllm : llm (tmpl q.title (q.abstract.take 500) (focusHead fa)) with
  | none => simp [screenPaper, hllm] at h
  | some content =>
    by_cases hs : 3 ≤ parseScore content
    · simp only [screenPaper, hllm, if_pos hs, Option.some.injEq] at h
      exact ⟨parseScore content, by rw [← h], hs⟩
    · simp [screenPaper, hllm, if_neg hs] at h

/-- Claim C4: every Paper the Relevance Screener returns carries a
`relevance_score` of at least 3; when the regex search finds no labeled
integer score the default 3 is used; and a paper whose parsed score is
below 3 is dropped by the per-paper screening step. -/
theorem screen_relevance_score_bound (llm : String → Option String)
    (tmpl : String → String → String → String) (papers : List Paper)
    (fa : List String) :
    (∀ p ∈ screen_relevance llm tmpl papers fa,
        ∃ s, p.relevance_score = some s ∧ 3 ≤ s) ∧
    (∀ content : String,
        searchScore content.data = none → parseScore content = 3) ∧
    (∀ (p : Paper) (content : String),
        llm (tmpl p.title (p.abstract.take 500) (focusHead fa)) =
          some content →
        parseScore content < 3 → screenPaper llm tmpl fa p = none) := by
  refine ⟨?_, ?_, ?_⟩
  · intro p hp
    rcases List.mem_filterMap.mp hp with ⟨q, _, hsp⟩
    exact screenPaper_some hsp
  · intro content h
    simp [parseScore, h]
  · intro p content hllm hlt
    simp [screenPaper, hllm, Nat.not_le.mpr hlt]

/-- A text-understanding service that always answers with score 4. -/
def llmScoreFour : String → Option String := fun _ => some "SCORE: 4"

/-- A concrete screening-prompt template. -/
def tmplConcat : String → String → String → String :=
  fun t a f => t ++ " | " ++ a ++ " | " ++ f

/-- The enriched paper the screener produces for `paperHri` under
`llmScoreFour`. -/
def paperHriScreened : Paper :=
  { paperHri with relevance_score := some 4,
                  relevance_reason := some "Relevance assessment" }

/-- Witness for C4 at a concrete accepted paper. -/
theorem screen_relevance_score_bound_witness :
    ∃ s, paperHriScreened.relevance_score = some s ∧ 3 ≤ s :=
  (screen_relevance_score_bound llmScoreFour tmplConcat [paperHri] []).1
    paperHriScreened (by decide)

/-- Claim C10: the screened output depends on the focus-areas list only
through its first element (with `"definitions"` substituted when the
list is empty): two runs over the same papers and the same service
behaviour whose focus lists share a head produce identical output. -/
theorem screen_relevance_focus_head_only (llm : String → Option String)
    (tmpl : String → String → String → String) (papers : List Paper)
    (fa₁ fa₂ : List String) (h : focusHead fa₁ = focusHead fa₂) :
    screen_relevance llm tmpl papers fa₁ =
      screen_relevance llm tmpl papers fa₂ := by
  have hfun : screenPaper llm tmpl fa₁ = screenPaper llm tmpl fa₂ := by
    funext p
    unfold screenPaper
    rw [h]
  unfold screen_relevance
  rw [hfun]

/-- Witness for C10: a two-element and a one-element focus list with
the same head screen identically. -/
theorem screen_relevance_focus_head_only_witness :
    screen_relevance llmScoreFour tmplConcat [paperHri]
        ["definitions", "unused extra area"] =
      screen_relevance llmScoreFour tmplConcat [paperHri] ["definitions"] :=
  screen_relevance_focus_head_only llmScoreFour tmplConcat [paperHri]
    ["definitions", "unused extra area"] ["definitions"] rfl

/-! ### 4.7 Categorized Downloader (`download_pdfs`) -/

/-- `f"{i:02d}"`: zero-pad the sequence index to two digits. -/
def pad2 (i : Nat) : String :=
  if i < 10 then "0" ++ toString i else toString i

/-- `paper.get('year') or 'unknown'`: Python `or` falls through to
`'unknown'` on `None` and on the falsy year `0`. -/
def yearLabel : Option Int → String
  | some y => if y = 0 then "unknown" else toString y
  | none => "unknown"

/-- The category-specific file path for the `i`-th attempted paper:
project root, run directory, category directory, and a filename derived
from the sequence index and the year. -/
def pdfFilePath (root run_id category : String) (i : Nat)
    (year : Option Int) : String :=
  root ++ "/data/runs/" ++ run_id ++
    "/literature_search_agent_group/pdfs/" ++ category ++ "/paper_" ++
    pad2 i ++ "_" ++ yearLabel year ++ ".pdf"

/-- The fixed category enumeration used when the caller passes none. -/
def defaultCategories : List String := ["definitions", "behaviors", "measurement"]

/-- The downloader's loop body over the remaining papers, with the
1-based index `i` explicit. `dl url path` models `download_pdf`.
Returns the processed (mutated) papers in order, paired with the
accumulated `downloaded` list: successes gain `local_pdf_path`,
`downloaded := true`, `downloaded_at` and `category` and are appended
to `downloaded`; failures (fetch failure or missing URL) only gain
`downloaded := false`. -/
def downloadGo (dl : String → String → Bool) (root now run_id : String)
    (cats : List String) : Nat → List Paper → List Paper × List Paper
  | _, [] => ([], [])
  | i, p :: rest =>
      let category := cats.getD (i % cats.length) ""
      let result := downloadGo dl root now run_id cats (i + 1) rest
      if p.url ≠ "" then
        let fp := pdfFilePath root run_id category i p.year
        if dl p.url fp then
          let p' := { p with local_pdf_path := some fp,
                             downloaded := some true,
                             downloaded_at := some now,
                             category := some category }
          (p' :: result.1, p' :: result.2)
        else
          ({ p with downloaded := some false } :: result.1, result.2)
      else
        ({ p with downloaded := some false } :: result.1, result.2)

/-- `download_pdfs`: process the first 50 papers, starting the
enumeration at 1; the Python function returns only the `downloaded`
list (the second component), while the first component is the papers it
attempted, mutated in place. -/
def download_pdfs (dl : String → String → Bool) (root now run_id : String)
    (cats : List String) (papers : List Paper) : List Paper × List Paper :=
  downloadGo dl root now run_id cats 1 (papers.take 50)

/-- A fetcher that never succeeds. -/
def dlNever : String → String → Bool := fun _ _ => false

/-- A fetcher that always succeeds. -/
def dlAlways : String → String → Bool := fun _ _ => true

/-- A screened paper with no URL: the downloader attempts it (it is in
the bounded prefix) and marks it `downloaded := false`. -/
def paperNoUrl : Paper := { paperHri with url := "" }

/-- Counterexample to C2 as stated: with a single attempted paper that
has no URL, the attempted paper (mutated to `downloaded := false`) does
not appear in the list `download_pdfs` returns — the return list holds
only the successful downloads. -/
theorem download_pdfs_attempted_missing :
    ¬ (∀ p ∈ (download_pdfs dlNever "/root" "t0" "run1" defaultCategories
          [paperNoUrl]).1,
        p ∈ (download_pdfs dlNever "/root" "t0" "run1" defaultCategories
          [paperNoUrl]).2) := by
  decide

theorem downloadGo_snd_eq_filter (dl : String → String → Bool)
    (root now run_id : String) (cats : List String) (i : Nat)
    (l : List Paper) :
    (downloadGo dl root now run_id cats i l).2 =
      (downloadGo dl root now run_id cats i l).1.filter
        (fun p => p.downloaded == some true) := by
  induction l generalizing i with
  | nil => rfl
  | cons p rest ih =>
    simp only [downloadGo]
    split
    · split
      · simp [List.filter_cons, ih (i + 1)]
      · simp [List.filter_cons, ih (i + 1)]
    · simp [List.filter_cons, ih (i + 1)]

/-- Claim C2 (amended): the list `download_pdfs` returns contains
exactly those attempted papers whose download succeeded — it equals the
attempted (mutated) prefix filtered to `downloaded = true`. Attempted
papers whose fetch failed or that had no URL are marked
`downloaded := false` in place but are not in the returned list, so the
caller can compute the exact success count (but not the failure count)
from it. -/
theorem download_pdfs_returns_successes (dl : String → String → Bool)
    (root now run_id : String) (cats : List String) (papers : List Paper) :
    (download_pdfs dl root now run_id cats papers).2 =
      (download_pdfs dl root now run_id cats papers).1.filter
        (fun p => p.downloaded == some true) :=
  downloadGo_snd_eq_filter dl root now run_id cats 1 (papers.take 50)

theorem pdfFilePath_ne_empty (root run_id category : String) (i : Nat)
    (year : Option Int) : pdfFilePath root run_id category i year ≠ "" := by
  intro h
  have h2 := congrArg String.length h
  simp only [pdfFilePath, String.length_append] at h2
  have h4 : (".pdf" : String).length = 4 := rfl
  have h0 : ("" : String).length = 0 := rfl
  rw [h4, h0] at h2
  omega

theorem downloadGo_path_invariant (dl : String → String → Bool)
    (root now run_id : String) (cats : List String) (i : Nat)
    (l : List Paper) (h : ∀ q ∈ l, q.local_pdf_path = none) :
    ∀ p ∈ (downloadGo dl root now run_id cats i l).1,
      (p.downloaded = some true →
        ∃ s, p.local_pdf_path = some s ∧ s ≠ "") ∧
      (p.downloaded = some false → p.local_pdf_path = none) := by
  induction l generalizing i with
  | nil => intro p hp; simp [downloadGo] at hp
  | cons q rest ih =>
    intro p hp
    have hq : q.local_pdf_path = none := h q (List.mem_cons_self _ _)
    have hrest : ∀ r ∈ rest, r.local_pdf_path = none :=
      fun r hr => h r (List.mem_cons_of_mem _ hr)
    simp only [downloadGo] at hp
    split at hp
    · split at hp
      · rcases List.mem_cons.mp hp with rfl | hp'
        · refine ⟨fun _ => ⟨_, rfl, pdfFilePath_ne_empty _ _ _ _ _⟩, ?_⟩
          intro hfalse
          simp at hfalse
        · exact ih (i + 1) hrest p hp'
      · rcases List.mem_cons.mp hp with rfl | hp'
        · exact ⟨fun htrue => by simp at htrue, fun _ => hq⟩
        · exact ih (i + 1) hrest p hp'
    · rcases List.mem_cons.mp hp with rfl | hp'
      · exact ⟨fun htrue => by simp at htrue, fun _ => hq⟩
      · exact ih (i + 1) hrest p hp'

/-- Claim C6: over papers entering the downloader with no
`local_pdf_path` yet, every processed paper that ends marked
`downloaded = true` has a non-empty `local_pdf_path` (the path the file
was written to), and every paper that ends marked `downloaded = false`
has no `local_pdf_path`. -/
theorem download_pdfs_path_invariant (dl : String → String → Bool)
    (root now run_id : String) (cats : List String) (papers : List Paper)
    (h : ∀ q ∈ papers, q.local_pdf_path = none) :
    ∀ p ∈ (download_pdfs dl root now run_id cats papers).1,
      (p.downloaded = some true →
        ∃ s, p.local_pdf_path = some s ∧ s ≠ "") ∧
      (p.downloaded = some false → p.local_pdf_path = none) :=
  downloadGo_path_invariant dl root now run_id cats 1 (papers.take 50)
    (fun q hq => h q (List.mem_of_mem_take hq))

/-- The paper `paperHri` after a successful download in run `run1`:
index 1 maps to category `behaviors` and a file path derived from the
index and year. -/
def paperHriDownloaded : Paper :=
  { paperHri with
      local_pdf_path := some
        ("/root/data/runs/run1/literature_search_agent_group/pdfs/behaviors/paper_01_2020.pdf"),
      downloaded := some true,
      downloaded_at := some "t0",
      category := some "behaviors" }

/-- Witness for C6 at a concrete successful download. -/
theorem download_pdfs_path_invariant_witness :
    (paperHriDownloaded.downloaded = some true →
      ∃ s, paperHriDownloaded.local_pdf_path = some s ∧ s ≠ "") ∧
    (paperHriDownloaded.downloaded = some false →
      paperHriDownloaded.local_pdf_path = none) :=
  download_pdfs_path_invariant dlAlways "/root" "t0" "run1"
    defaultCategories [paperHri] (by decide) paperHriDownloaded (by decide)

/-! ### JSON values and `json.loads`, as used by the Findings Extractor -/

/-- JSON values as Python's `json.loads` produces them; numbers keep
their lexeme (the pipeline never computes with them). -/
inductive Json where
  | null
  | boolean (b : Bool)
  | num (lex : String)
  | str (s : String)
  | arr (xs : List Json)
  | obj (kvs : List (String × Json))

/-- JSON whitespace accepted between tokens. -/
def jsonWs (c : Char) : Bool :=
  c = ' ' || c = '\t' || c = '\n' || c = '\r'

/-- Skip JSON whitespace. -/
def skipWs (cs : List Char) : List Char := cs.dropWhile jsonWs

/-- Hexadecimal digit test for `\uXXXX` escapes. -/
def isHexDigit (c : Char) : Bool :=
  c.isDigit || ('a' ≤ c && c ≤ 'f') || ('A' ≤ c && c ≤ 'F')

/-- Value of a hexadecimal digit. -/
def hexVal (c : Char) : Nat :=
  if c.isDigit then c.toNat - '0'.toNat
  else if 'a' ≤ c && c ≤ 'f' then c.toNat - 'a'.toNat + 10
  else c.toNat - 'A'.toNat + 10

/-- Single-character JSON string escapes: quote, backslash and slash
map to themselves, the letter escapes to their control characters. -/
def escapeChar (e : Char) : Option Char :=
  if e = '"' || e = '\\' || e = '/' then some e
  else if e = 'b' then some '\x08'
  else if e = 'f' then some '\x0c'
  else if e = 'n' then some '\n'
  else if e = 'r' then some '\r'
  else if e = 't' then some '\t'
  else none

/-- Body of a JSON string after the opening quote: decoded characters
plus the rest of the input after the closing quote. Unescaped control
characters are rejected, as in Python's strict decoder. -/
def parseStringBody : List Char → Option (List Char × List Char)
  | [] => none
  | '\\' :: 'u' :: h1 :: h2 :: h3 :: h4 :: rest =>
      if isHexDigit h1 && isHexDigit h2 && isHexDigit h3 && isHexDigit h4 then
        match parseStringBody rest with
        | some (s, r) =>
            some (Char.ofNat (4096 * hexVal h1 + 256 * hexVal h2 +
              16 * hexVal h3 + hexVal h4) :: s, r)
        | none => none
      else none
  | '\\' :: e :: rest =>
      match escapeChar e with
      | some c =>
          match parseStringBody rest with
          | some (s, r) => some (c :: s, r)
          | none => none
      | none => none
  | '"' :: rest => some ([], rest)
  | c :: rest =>
      if c.toNat < 32 then none
      else
        match parseStringBody rest with
        | some (s, r) => some (c :: s, r)
        | none => none

/-- Split a maximal leading digit run from the rest. -/
def digitsSplit (cs : List Char) : List Char × List Char :=
  (cs.takeWhile Char.isDigit, cs.dropWhile Char.isDigit)

/-- Integer part of a JSON number: `0`, or a nonzero digit followed by
digits (leading zeros are rejected at top level by the full-consumption
check and in nested positions by the grammar). -/
def parseIntPart : List Char → Option (List Char × List Char)
  | '0' :: rest => some (['0'], rest)
  | c :: rest =>
      if c.isDigit then
        some (c :: (digitsSplit rest).1, (digitsSplit rest).2)
      else none
  | [] => none

/-- Optional exponent part appended to the accumulated lexeme. -/
def parseExpPart (acc : List Char) (cs : List Char) :
    Option (List Char × List Char) :=
  match cs with
  | c :: r1 =>
      if c = 'e' || c = 'E' then
        match r1 with
        | s :: r2 =>
            if s = '+' || s = '-' then
              match digitsSplit r2 with
              | ([], _) => none
              | (ds, r3) => some (acc ++ c :: s :: ds, r3)
            else
              match digitsSplit r1 with
              | ([], _) => none
              | (ds, r3) => some (acc ++ c :: ds, r3)
        | [] => none
      else some (acc, cs)
  | [] => some (acc, cs)

/-- Unsigned JSON number: integer part, optional fraction, optional
exponent. -/
def parseNumAfterSign (cs : List Char) : Option (List Char × List Char) :=
  match parseIntPart cs with
  | none => none
  | some (ip, r1) =>
      match r1 with
      | '.' :: r2 =>
          match digitsSplit r2 with
          | ([], _) => none
          | (ds, r3) => parseExpPart (ip ++ '.' :: ds) r3
      | _ => parseExpPart ip r1

/-- A numeric token, including the `NaN`/`Infinity` extensions Python's
decoder accepts by default. -/
def parseNumberTok (cs : List Char) : Option (Json × List Char) :=
  match cs with
  | 'N' :: 'a' :: 'N' :: rest => some (.num "NaN", rest)
  | 'I' :: 'n' :: 'f' :: 'i' :: 'n' :: 'i' :: 't' :: 'y' :: rest =>
      some (.num "Infinity", rest)
  | '-' :: 'I' :: 'n' :: 'f' :: 'i' :: 'n' :: 'i' :: 't' :: 'y' :: rest =>
      some (.num "-Infinity", rest)
  | '-' :: rest =>
      match parseNumAfterSign rest with
      | some (lex, r) => some (.num (String.mk ('-' :: lex)), r)
      | none => none
  | _ =>
      match parseNumAfterSign cs with
      | some (lex, r) => some (.num (String.mk lex), r)
      | none => none

/-- Recognize one fixed JSON keyword (`null`, `true`, `false`) at the
head of the input, yielding its value and the remaining characters. -/
def keywordTok (kw : String) (j : Json) (cs : List Char) :
    Option (Json × List Char) :=
  if cs.take kw.length = kw.data then some (j, cs.drop kw.length) else none

mutual

/-- One JSON value (with surrounding whitespace skipped on the left),
fuel-bounded. -/
def parseJsonValue : Nat → List Char → Option (Json × List Char)
  | 0, _ => none
  | fuel + 1, cs =>
      match skipWs cs with
      | '"' :: rest =>
          match parseStringBody rest with
          | some (s, r) => some (.str (String.mk s), r)
          | none => none
      | '[' :: rest =>
          match skipWs rest with
          | ']' :: r2 => some (.arr [], r2)
          | r2 =>
              match parseJsonItems fuel r2 with
              | some (xs, r) => some (.arr xs, r)
              | none => none
      | '{' :: rest =>
          match skipWs rest with
          | '}' :: r2 => some (.obj [], r2)
          | r2 =>
              match parseJsonMembers fuel r2 with
              | some (kvs, r) => some (.obj kvs, r)
              | none => none
      | rest =>
          match keywordTok "null" .null rest with
          | some v => some v
          | none =>
              match keywordTok "true" (.boolean true) rest with
              | some v => some v
              | none =>
                  match keywordTok "false" (.boolean false) rest with
                  | some v => some v
                  | none => parseNumberTok rest

/-- Comma-separated values up to the closing bracket. -/
def parseJsonItems : Nat → List Char → Option (List Json × List Char)
  | 0, _ => none
  | fuel + 1, cs =>
      match parseJsonValue fuel cs with
      | none => none
      | some (v, r) =>
          match skipWs r with
          | ',' :: r2 =>
              match parseJsonItems fuel r2 with
              | some (xs, r3) => some (v :: xs, r3)
              | none => none
          | ']' :: r2 => some ([v], r2)
          | _ => none

/-- Comma-separated key-value pairs up to the closing brace. -/
def parseJsonMembers : Nat → List Char →
    Option (List (String × Json) × List Char)
  | 0, _ => none
  | fuel + 1, cs =>
      match skipWs cs with
      | '"' :: rest =>
          match parseStringBody rest with
          | none => none
          | some (k, r1) =>
              match skipWs r1 with
              | ':' :: r2 =>
                  match parseJsonValue fuel r2 with
                  | none => none
                  | some (v, r3) =>
                      match skipWs r3 with
                      | ',' :: r4 =>
                          match parseJsonMembers fuel r4 with
                          | some (kvs, r5) =>
                              some ((String.mk k, v) :: kvs, r5)
                          | none => none
                      | '}' :: r4 => some ([(String.mk k, v)], r4)
                      | _ => none
              | _ => none
      | _ => none

end

/-- `json.loads`: parse one value and require only whitespace to
remain, else fail (Python's `Extra data` error). -/
def jsonLoads (s : String) : Option Json :=
  match parseJsonValue (2 * s.length + 2) s.data with
  | some (v, rest) => if skipWs rest = [] then some v else none
  | none => none

/-! ### 4.6 Findings Extractor (`extract_findings`) -/

/-- `re.search(r'\x7b.*\x7d', content, re.DOTALL)`: the greedy match
runs from the first opening brace to the last closing brace of the
whole input (no balance check). -/
def greedyBraceMatch (cs : List Char) : Option (List Char) :=
  let t := cs.dropWhile (· ≠ '{')
  let m := (t.reverse.dropWhile (· ≠ '}')).reverse
  if m.isEmpty then none else some m

/-- Depth-counting scan used by the spec-side extractor model. -/
def balancedScan : Nat → List Char → List Char → Option (List Char)
  | _, _, [] => none
  | d, acc, c :: rest =>
      if c = '}' then
        if d = 1 then some (c :: acc).reverse
        else balancedScan (d - 1) (c :: acc) rest
      else if c = '{' then balancedScan (d + 1) (c :: acc) rest
      else balancedScan d (c :: acc) rest

/-- Modelled from the spec: the parsing contract of the Findings
Extractor, "locate the first balanced braced substring in the response"
— the earliest-starting substring that opens with a brace and closes at
matching depth. -/
def firstBalancedBraces : List Char → Option (List Char)
  | [] => none
  | c :: rest =>
      if c = '{' then
        match balancedScan 1 [c] rest with
        | some m => some m
        | none => firstBalancedBraces rest
      else firstBalancedBraces rest

/-- A structured Finding: the parsed JSON object plus the mandatory
`paper_title`/`paper_year` back-references assigned after parsing. -/
structure Finding where
  data : Json
  paper_title : String
  paper_year : Option Int

/-- What `extract_findings` does to one response: strip it, take the
greedy brace-to-brace regex match, and run `json.loads` on it; any
failure (no match, or a parse exception) yields nothing. -/
def extractResponseJson (content : String) : Option Json :=
  match greedyBraceMatch (pyStrip content).data with
  | none => none
  | some m => jsonLoads (String.mk m)

/-- Modelled from the spec: the extraction behaviour §4.6 prescribes —
parse the first balanced braced substring of the stripped response. -/
def specBalancedExtract (content : String) : Option Json :=
  match firstBalancedBraces (pyStrip content).data with
  | none => none
  | some m => jsonLoads (String.mk m)

/-- One iteration of the extraction loop: prompt from title and full
abstract, response from the service (`none` models an exception,
caught), JSON pulled from the response, back-references attached. -/
def extractPaper (llm : String → Option String)
    (tmpl : String → String → String) (p : Paper) : Option Finding :=
  match llm (tmpl p.title p.abstract) with
  | none => none
  | some content =>
      match extractResponseJson content with
      | some j => some ⟨j, p.title, p.year⟩
      | none => none

/-- The extraction loop over the remaining papers: failures are skipped
and the loop continues. -/
def extractGo (llm : String → Option String)
    (tmpl : String → String → String) : List Paper → List Finding
  | [] => []
  | p :: rest =>
      match extractPaper llm tmpl p with
      | some f => f :: extractGo llm tmpl rest
      | none => extractGo llm tmpl rest

/-- `extract_findings`: extract from the first 50 screened papers. -/
def extract_findings (llm : String → Option String)
    (tmpl : String → String → String) (papers : List Paper) :
    List Finding :=
  extractGo llm tmpl (papers.take 50)

/-- A response whose first balanced braced substring is valid JSON but
whose greedy first-brace-to-last-brace match is not. -/
def cxResponse : String := "\x7b\"a\": 1\x7d x \x7b\"b\": 2\x7d"

/-- Counterexample to C5 as stated: on `cxResponse` the code's
extraction (greedy regex match, then `json.loads`) returns nothing,
while parsing the first balanced braced substring — what the claim
describes — succeeds. -/
theorem extract_not_first_balanced :
    ¬ (extractResponseJson cxResponse = specBalancedExtract cxResponse) := by
  intro h
  have h1 : (extractResponseJson cxResponse).isNone = true := rfl
  have h2 : (specBalancedExtract cxResponse).isSome = true := rfl
  rw [h] at h1
  rw [Option.isNone_iff_eq_none.mp h1] at h2
  exact Bool.noConfusion h2

/-- Claim C5 (amended): the Findings Extractor takes the greedy regex
match of the stripped response — the substring from the first opening
brace to the last closing brace — and parses it as JSON; when there is
no such substring or it fails to parse, that paper yields zero
Findings and is silently skipped, and the loop continues over the
remaining papers unchanged. -/
theorem extract_findings_greedy_skip (llm : String → Option String)
    (tmpl : String → String → String) (p : Paper) (rest : List Paper)
    (content : String)
    (hresp : llm (tmpl p.title p.abstract) = some content) :
    (extractPaper llm tmpl p =
      (extractResponseJson content).map
        (fun j => Finding.mk j p.title p.year)) ∧
    (extractResponseJson content =
      match greedyBraceMatch (pyStrip content).data with
      | none => none
      | some m => jsonLoads (String.mk m)) ∧
    (extractResponseJson content = none →
      extractGo llm tmpl (p :: rest) = extractGo llm tmpl rest) := by
  refine ⟨?_, rfl, ?_⟩
  · cases h : extractResponseJson content with
    | none => simp [extractPaper, hresp, h]
    | some j => simp [extractPaper, hresp, h]
  · intro hnone
    have hnp : extractPaper llm tmpl p = none := by
      simp only [extractPaper, hresp, hnone]
    simp only [extractGo, hnp]

/-- The always-`cxResponse` service used to exercise the skip path. -/
def llmCx : String → Option String := fun _ => some cxResponse

/-- A concrete extraction-prompt template. -/
def tmplPair : String → String → String := fun t a => t ++ " | " ++ a

/-- Witness for the amended C5: a paper whose response fails the greedy
parse contributes nothing and the loop continues to the next paper. -/
theorem extract_findings_greedy_skip_witness :
    extractGo llmCx tmplPair (paperHri :: [paperHriDup]) =
      extractGo llmCx tmplPair [paperHriDup] :=
  (extract_findings_greedy_skip llmCx tmplPair paperHri [paperHriDup]
    cxResponse rfl).2.2 rfl

/-! ### 4.2 Provider Adapters (`src/utils/research_api.py`) -/

/-- One entry of an arXiv feed as the `arxiv` client exposes it. -/
structure ArxivResult where
  title : String
  summary : String
  pdf_url : String
  published_year : Option Int
  authors : List String
  entry_id : String
deriving DecidableEq, Repr

/-- Normalization of one arXiv result into a Paper (the dict built in
the `search_arxiv` loop body). -/
def arxivPaper (r : ArxivResult) : Paper :=
  { title := r.title, abstract := r.summary, url := r.pdf_url,
    year := r.published_year, authors := r.authors,
    source := "arXiv", entry_id := r.entry_id, doi := none }

/-- `search_arxiv`: every result is normalized and appended, with no
filtering of any kind; an exception (`none`) yields the empty list. -/
def search_arxiv (results : Option (List ArxivResult)) : List Paper :=
  match results with
  | none => []
  | some rs => rs.map arxivPaper

/-- One entry of a Semantic Scholar search response; `none` fields
model absent keys, handled by `dict.get` defaults in the source. -/
structure SSEntry where
  title : Option String
  abstract : Option String
  url : Option String
  year : Option Int
  authors : List (Option String)
  openAccessPdfUrl : Option String
  paperId : Option String
  citationCount : Option Int
deriving DecidableEq, Repr

/-- A Semantic Scholar HTTP response: status code and result entries. -/
structure SSResponse where
  status : Nat
  entries : List SSEntry
deriving DecidableEq, Repr

/-- Normalization of one Semantic Scholar entry into a Paper:
`dict.get` defaults for every field, and the `openAccessPdf` URL
preferred over the landing URL via Python `or`. -/
def ssPaper (e : SSEntry) : Paper :=
  { title := e.title.getD "",
    abstract := e.abstract.getD "",
    url := match e.openAccessPdfUrl with
           | some u => if u = "" then e.url.getD "" else u
           | none => e.url.getD "",
    year := e.year,
    authors := e.authors.map (fun a => a.getD ""),
    source := "Semantic Scholar",
    entry_id := e.paperId.getD "",
    doi := none,
    citation_count := some (e.citationCount.getD 0) }

/-- `search_semantic_scholar`: on a 200 response, keep an entry iff its
normalized URL or abstract is non-empty (`if paper_dict["url"] or
paper_dict["abstract"]`); any other status or an exception yields the
empty list. -/
def search_semantic_scholar (resp : Option SSResponse) : List Paper :=
  match resp with
  | none => []
  | some r =>
      if r.status = 200 then
        (r.entries.map ssPaper).filter
          (fun p => !p.url.isEmpty || !p.abstract.isEmpty)
      else []

/-- A Semantic Scholar entry whose title is the empty string but whose
abstract is non-empty. -/
def ssEmptyTitle : SSEntry :=
  { title := some "", abstract := some "An abstract about empathy.",
    url := none, year := none, authors := [], openAccessPdfUrl := none,
    paperId := none, citationCount := none }

/-- Counterexample to C8 as stated: the Semantic Scholar adapter
returns a Paper whose title is empty — no adapter drops empty-title
results. -/
theorem adapter_keeps_empty_title :
    ¬ (∀ p ∈ search_semantic_scholar (some ⟨200, [ssEmptyTitle]⟩),
        p.title ≠ "") := by
  decide

theorem string_ne_empty_iff_bang (s : String) : s ≠ "" ↔ (!s.isEmpty) = true := by
  rw [Bool.not_eq_true', ← Bool.not_eq_true]
  exact not_congr (String.isEmpty_iff s).symm

/-- Claim C8 (amended): the Semantic Scholar adapter's only filter is
on access — on a 200 response a Paper is returned iff it is the
normalization of a response entry whose URL or abstract is non-empty.
Titles are not checked, so a result whose title normalizes to the
empty string still enters the pipeline, and the arXiv adapter returns
all results unfiltered (one Paper per result, none dropped). -/
theorem search_semantic_scholar_url_or_abstract (r : SSResponse)
    (rs : List ArxivResult) (p : Paper) :
    (p ∈ search_semantic_scholar (some r) ↔
      r.status = 200 ∧ ∃ e, e ∈ r.entries ∧ ssPaper e = p ∧
        (p.url ≠ "" ∨ p.abstract ≠ "")) ∧
    (search_arxiv (some rs)).length = rs.length ∧
    (∀ a ∈ rs, arxivPaper a ∈ search_arxiv (some rs)) := by
  refine ⟨?_, ?_, ?_⟩
  · by_cases hs : r.status = 200
    · simp only [search_semantic_scholar, if_pos hs]
      constructor
      · intro hp
        rcases List.mem_filter.mp hp with ⟨hmem, hpred⟩
        rcases List.mem_map.mp hmem with ⟨e, he, hpe⟩
        refine ⟨hs, e, he, hpe, ?_⟩
        rcases Bool.or_eq_true_iff.mp hpred with h | h
        · exact Or.inl ((string_ne_empty_iff_bang p.url).mpr h)
        · exact Or.inr ((string_ne_empty_iff_bang p.abstract).mpr h)
      · rintro ⟨-, e, he, hpe, hacc⟩
        refine List.mem_filter.mpr ⟨List.mem_map.mpr ⟨e, he, hpe⟩, ?_⟩
        rcases hacc with h | h
        · exact Bool.or_eq_true_iff.mpr
            (Or.inl ((string_ne_empty_iff_bang p.url).mp h))
        · exact Bool.or_eq_true_iff.mpr
            (Or.inr ((string_ne_empty_iff_bang p.abstract).mp h))
    · constructor
      · intro hp
        simp [search_semantic_scholar, if_neg hs] at hp
      · rintro ⟨h200, -⟩
        exact absurd h200 hs
  · simp [search_arxiv, List.length_map]
  · intro a ha
    exact List.mem_map.mpr ⟨a, ha, rfl⟩

/-- Witness for the amended C8: via the reverse direction of the
characterization at a concrete 200 response, the empty-title
non-empty-abstract entry's Paper is in the adapter's output. -/
theorem search_semantic_scholar_url_or_abstract_witness :
    ssPaper ssEmptyTitle ∈
      search_semantic_scholar (some ⟨200, [ssEmptyTitle]⟩) :=
  ((search_semantic_scholar_url_or_abstract ⟨200, [ssEmptyTitle]⟩ []
      (ssPaper ssEmptyTitle)).1).mpr
    ⟨rfl, ssEmptyTitle, by decide, rfl, Or.inr (by decide)⟩

/-! ### C9: the issued Semantic Scholar search request -/

/-- An HTTP GET request as `requests.get` receives it. -/
structure HttpRequest where
  url : String
  params : List (String × String)
  timeout : Nat
deriving DecidableEq, Repr

/-- The Semantic Scholar API base URL set in the client constructor. -/
def semanticScholarBase : String := "https://api.semanticscholar.org/graph/v1"

/-- The `params` dict built by `search_semantic_scholar` from the query
and limit (research_api.py lines 53-57). -/
def ssSearchParams (query : String) (limit : Nat) : List (String × String) :=
  [("query", query), ("limit", toString limit),
   ("fields", "title,abstract,url,year,authors,openAccessPdf,citationCount")]

/-- The request actually issued (research_api.py line 59):
`requests.get(url, timeout=10)` — the `params` dict is built but never
passed, so the request carries no parameters at all. -/
def ssIssuedRequest (_query : String) (_limit : Nat) : HttpRequest :=
  { url := semanticScholarBase ++ "/paper/search", params := [], timeout := 10 }

/-- Claim C9 (code bug): two different queries produce the identical
parameterless request, even though the params the adapter prepared for
them differ — the translation into the native request is built and then
dropped. -/
theorem ss_request_ignores_query :
    ssIssuedRequest "robot empathy measurement" 20 =
      ssIssuedRequest "empathic robot behavior" 20 ∧
    ssSearchParams "robot empathy measurement" 20 ≠
      ssSearchParams "empathic robot behavior" 20 := by
  exact ⟨rfl, by decide⟩

/-! ### 4.8 Results Organizer (`organize_results`) -/

/-- Python `dict.get` on a parsed JSON object: later duplicate keys
override earlier ones, so lookup takes the last binding; non-objects
have no keys. -/
def jGet (j : Json) (k : String) : Option Json :=
  match j with
  | .obj kvs =>
      match kvs.reverse.find? (fun kv => kv.1 == k) with
      | some kv => some kv.2
      | none => none
  | _ => none

/-- Truthiness of a JSON number lexeme: any nonzero mantissa digit, or
the `NaN`/`Infinity` extensions. -/
def jsonNumTruthy (lex : String) : Bool :=
  (lex.data.takeWhile (fun c => c ≠ 'e' && c ≠ 'E')).any
      (fun c => c.isDigit && c ≠ '0') ||
    lex.data.any (fun c => c = 'N' || c = 'I')

/-- Python truthiness of a value produced by `json.loads`. -/
def jsonTruthy : Json → Bool
  | .null => false
  | .boolean b => b
  | .num lex => jsonNumTruthy lex
  | .str s => !s.isEmpty
  | .arr xs => !xs.isEmpty
  | .obj kvs => !kvs.isEmpty

/-- Python `str()` of a number produced by `json.loads`: pure integer
lexemes become Python ints, printed canonically (the grammar already
bars leading zeros, so only `-0` needs renormalizing to `0`);
fractional and exponent lexemes become binary floats whose
shortest-round-trip rendering depends on float semantics outside this
embedding and is approximated by the lexeme itself. -/
def pyNumStr (lex : String) : String :=
  if lex.data.all (fun c => c.isDigit || c = '-') then
    if lex = "-0" then "0" else lex
  else lex

/-- Lowercase hexadecimal digit for `repr` escapes. -/
def hexDigitChar (n : Nat) : Char :=
  if n < 10 then Char.ofNat (48 + n) else Char.ofNat (87 + n)

/-- Python `repr` escaping of one character inside quotes `q`:
backslash, the quote, newline/return/tab escapes, `\xhh` for the
remaining control characters. -/
def pyReprCharEsc (q c : Char) : List Char :=
  if c = '\\' then ['\\', '\\']
  else if c = q then ['\\', q]
  else if c = '\n' then ['\\', 'n']
  else if c = '\r' then ['\\', 'r']
  else if c = '\t' then ['\\', 't']
  else if c.toNat < 32 || c.toNat = 127 then
    ['\\', 'x', hexDigitChar (c.toNat / 16), hexDigitChar (c.toNat % 16)]
  else [c]

/-- Python `repr()` of a string: single quotes unless the string holds
a single quote and no double quote, with per-character escaping.
Characters above 127 are kept as-is, approximating CPython's
Unicode-printability test. -/
def pyReprStr (s : String) : String :=
  let q : Char :=
    if s.data.contains '\x27' && !(s.data.contains '"') then '"' else '\x27'
  String.mk (q :: (s.data.flatMap (pyReprCharEsc q) ++ [q]))

mutual

/-- Python `str()` of a value produced by `json.loads`. -/
def pyStr : Json → String
  | .null => "None"
  | .boolean true => "True"
  | .boolean false => "False"
  | .num lex => pyNumStr lex
  | .str s => s
  | .arr xs => "[" ++ pyReprSeq xs ++ "]"
  | .obj kvs => "\x7b" ++ pyReprPairs kvs ++ "\x7d"

/-- Python `repr()` of a value produced by `json.loads` (strings gain
quotes and escaping, used inside container display). -/
def pyRepr : Json → String
  | .null => "None"
  | .boolean true => "True"
  | .boolean false => "False"
  | .num lex => pyNumStr lex
  | .str s => pyReprStr s
  | .arr xs => "[" ++ pyReprSeq xs ++ "]"
  | .obj kvs => "\x7b" ++ pyReprPairs kvs ++ "\x7d"

/-- Comma-separated `repr` display of list elements. -/
def pyReprSeq : List Json → String
  | [] => ""
  | [x] => pyRepr x
  | x :: xs => pyRepr x ++ ", " ++ pyReprSeq xs

/-- Comma-separated `repr` display of dict entries. -/
def pyReprPairs : List (String × Json) → String
  | [] => ""
  | [kv] => pyReprStr kv.1 ++ ": " ++ pyRepr kv.2
  | kv :: kvs => pyReprStr kv.1 ++ ": " ++ pyRepr kv.2 ++ ", " ++ pyReprPairs kvs

end

/-- `', '.join(...)`. -/
def joinComma : List String → String
  | [] => ""
  | [s] => s
  | s :: rest => s ++ ", " ++ joinComma rest

/-- The keyword table for the verbal behavior bucket. -/
def verbalKeywords : List String := ["speech", "verbal", "language", "words"]

/-- The keyword table for the nonverbal behavior bucket. -/
def nonverbalKeywords : List String := ["gesture", "gaze", "expression", "face"]

/-- The fixed-shape aggregate `organize_results` builds. -/
structure Organized where
  empathy_definitions : List (Json × String × Option Int)
  verbal : List String
  nonverbal : List String
  adaptive : List String
  measurement_approaches : List (Json × String)

/-- The empty aggregate the organizer starts from. -/
def emptyOrganized : Organized := ⟨[], [], [], [], []⟩

/-- Append one behavior string to the bucket its keywords select:
verbal keywords checked first, then nonverbal, else adaptive. -/
def addBehavior (o : Organized) (s : String) : Organized :=
  let lower := s.toLower
  if verbalKeywords.any (fun kw => containsSub kw lower) then
    { o with verbal := o.verbal ++ [s] }
  else if nonverbalKeywords.any (fun kw => containsSub kw lower) then
    { o with nonverbal := o.nonverbal ++ [s] }
  else
    { o with adaptive := o.adaptive ++ [s] }

/-- Fold one Finding into the aggregate: definitions when truthy,
behaviors (lists joined into one string; only strings with non-blank
content are classified), measurement methods when truthy. -/
def organizeFinding (o : Organized) (f : Finding) : Organized :=
  let o1 :=
    match jGet f.data "empathy_definition" with
    | some v =>
        if jsonTruthy v then
          { o with empathy_definitions :=
              o.empathy_definitions ++ [(v, f.paper_title, f.paper_year)] }
        else o
    | none => o
  let bval := (jGet f.data "behaviors_identified").getD (.str "")
  let o2 :=
    if jsonTruthy bval then
      match bval with
      | .arr xs =>
          if !(pyStrip (joinComma (xs.map pyStr))).isEmpty then
            addBehavior o1 (joinComma (xs.map pyStr))
          else o1
      | .str s => if !(pyStrip s).isEmpty then addBehavior o1 s else o1
      | _ => o1
    else o1
  let mval := (jGet f.data "measurement_methods").getD (.str "")
  if jsonTruthy mval then
    { o2 with measurement_approaches :=
        o2.measurement_approaches ++ [(mval, f.paper_title)] }
  else o2

/-- `organize_results`: pure aggregation over the Findings list. -/
def organize_results (findings : List Finding) : Organized :=
  findings.foldl organizeFinding emptyOrganized

/-! ### 4.3 / 4.9 Multi-Source Searcher and Pipeline Orchestrator -/

/-- `search_and_screen`: accumulate all providers' results for every
query (`search_all` is the multi-source search collaborator),
deduplicate globally, then screen; returns `self.papers` (the unique
list) together with the screened list. -/
def search_and_screen (searchAll : String → List Paper)
    (llm : String → Option String)
    (tmplS : String → String → String → String) (queries : List String)
    (focus_areas : Option (List String)) : List Paper × List Paper :=
  let fa := focus_areas.getD ["definitions", "behaviors", "measurement"]
  let unique := dedup ((queries.map searchAll).flatten)
  (unique, screen_relevance llm tmplS unique fa)

/-- The orchestrator's consolidated result object. -/
structure PipelineResult where
  search_queries : List String
  total_papers_found : Nat
  screened_papers : Nat
  extracted_findings : Nat
  pdfs_downloaded : Nat
  organized_findings : Organized
  downloaded_papers : List Paper
  all_findings : List Finding

/-- `search_and_download`: the five pipeline stages in order, threading
each stage's output into the next and bundling the counts. -/
def search_and_download (llmQ : Option String)
    (fallback : String × String × String) (searchAll : String → List Paper)
    (llmS : String → Option String)
    (tmplS : String → String → String → String)
    (llmE : String → Option String) (tmplE : String → String → String)
    (dl : String → String → Bool) (root now run_id : String) :
    PipelineResult :=
  let queries := generate_queries fallback llmQ
  let sr := search_and_screen searchAll llmS tmplS queries none
  let findings := extract_findings llmE tmplE sr.2
  let dled := download_pdfs dl root now run_id defaultCategories sr.2
  { search_queries := queries,
    total_papers_found := sr.1.length,
    screened_papers := sr.2.length,
    extracted_findings := findings.length,
    pdfs_downloaded := dled.2.length,
    organized_findings := organize_results findings,
    downloaded_papers := dled.2,
    all_findings := findings }

/-- Claim C7: when every provider returns zero papers for every query,
the pipeline still returns a PipelineResult whose counts are all zero,
whose organized findings are all empty collections, and whose lists are
empty. -/
theorem pipeline_empty_providers (llmQ : Option String)
    (fallback : String × String × String) (searchAll : String → List Paper)
    (llmS : String → Option String)
    (tmplS : String → String → String → String)
    (llmE : String → Option String) (tmplE : String → String → String)
    (dl : String → String → Bool) (root now run_id : String)
    (h : ∀ q, searchAll q = []) :
    (search_and_download llmQ fallback searchAll llmS tmplS llmE tmplE dl
        root now run_id).total_papers_found = 0 ∧
    (search_and_download llmQ fallback searchAll llmS tmplS llmE tmplE dl
        root now run_id).screened_papers = 0 ∧
    (search_and_download llmQ fallback searchAll llmS tmplS llmE tmplE dl
        root now run_id).extracted_findings = 0 ∧
    (search_and_download llmQ fallback searchAll llmS tmplS llmE tmplE dl
        root now run_id).pdfs_downloaded = 0 ∧
    (search_and_download llmQ fallback searchAll llmS tmplS llmE tmplE dl
        root now run_id).organized_findings = emptyOrganized ∧
    (search_and_download llmQ fallback searchAll llmS tmplS llmE tmplE dl
        root now run_id).downloaded_papers = [] ∧
    (search_and_download llmQ fallback searchAll llmS tmplS llmE tmplE dl
        root now run_id).all_findings = [] := by
  have hjoin : ∀ qs : List String, ((qs.map searchAll).flatten : List Paper) = [] := by
    intro qs
    induction qs with
    | nil => rfl
    | cons q rest ih => simp [h q, ih]
  simp only [search_and_download, search_and_screen, hjoin]
  refine ⟨rfl, rfl, rfl, rfl, rfl, rfl, rfl⟩

/-- Witness for C7 at a concrete no-hit run. -/
theorem pipeline_empty_providers_witness :
    (search_and_download (some "1. queries about robot empathy scales")
        ("robot empathy", "empathic robot", "empathy measurement")
        (fun _ => []) llmScoreFour tmplConcat llmCx tmplPair dlAlways
        "/root" "t0" "run1").total_papers_found = 0 :=
  (pipeline_empty_providers (some "1. queries about robot empathy scales")
    ("robot empathy", "empathic robot", "empathy measurement")
    (fun _ => []) llmScoreFour tmplConcat llmCx tmplPair dlAlways
    "/root" "t0" "run1" (fun _ => rfl)).1

end EmpathyScale
